import Mathlib

/-!
Verification of the overleaf-sync sync core (src/olsync/olsync.py and
src/olsync/olclient.py) against its natural-language specification.

The development shallowly embeds the two subsystems the spec calls "the
sync core":

* the synchronization engine `sync_func` (olsync.py lines 285-391):
  classification of the "from" enumeration and the "deleted" set, and the
  ordered application of the classified actions;
* the remote session protocol client `get_project_infos.run`
  (olclient.py lines 181-255), the folder materializer inside
  `upload_file` (olclient.py lines 277-296), `create_folder`
  (olclient.py lines 123-150), `safe_post` (olclient.py lines 69-75) and
  the result expression of `upload_file` (olclient.py line 311).

Python callbacks and interactive prompts are modelled as injected
functions; machine state (the two file trees) is modelled as explicit
association lists from file name to byte content (content as `String`).
-/

/-! ## Synchronization engine: classification (olsync.py lines 285-323) -/

/-- The decision by `click.prompt(..., type=click.Choice(['d', 'r', 'i']))`
in `sync_func` (olsync.py lines 312-317): delete, restore or ignore. -/
inductive Choice where
  | d | r | i
deriving DecidableEq, Repr

/-- The classification a name from `files_from` receives in the first loop
of `sync_func` (olsync.py lines 297-310): `create` = appended to
`newly_add_list`, `update` = appended to `update_list`, `synced` =
appended to `synced_list`, `skipped` = appended to `not_sync_list`. -/
inductive FromClass where
  | create | update | synced | skipped
deriving DecidableEq, Repr

/-- The injected capabilities of `sync_func` (olsync.py line 285) that
classification reads: the three predicates `from_exists_in_to`,
`from_equal_to_to`, `from_newer_than_to`, the `click.confirm` overwrite
answer (olsync.py lines 300-302) and the `click.prompt` deletion answer
(olsync.py lines 313-317), the latter two as pure decision functions of
the file name. -/
structure SyncEnv where
  from_exists_in_to : String → Bool
  from_equal_to_to : String → Bool
  from_newer_than_to : String → Bool
  confirm_overwrite : String → Bool
  decide_deletion : String → Choice

/-- The body of the first loop of `sync_func` (olsync.py lines 297-310)
for one name: `if from_exists_in_to(name): if not from_equal_to_to(name):
if not from_newer_than_to(name) and not click.confirm(...): skipped else
update; else synced; else create`. `click.confirm` is only consulted when
the name is not newer, matching the Python short-circuit `and`. -/
def classifyFrom (env : SyncEnv) (name : String) : FromClass :=
  if env.from_exists_in_to name then
    if !(env.from_equal_to_to name) then
      if !(env.from_newer_than_to name) && !(env.confirm_overwrite name) then
        FromClass.skipped
      else
        FromClass.update
    else
      FromClass.synced
  else
    FromClass.create

/-- The seven lists built by the two classification loops of `sync_func`
(olsync.py lines 289-323), with the source's names. -/
structure Classified where
  newly_add_list : List String
  update_list : List String
  synced_list : List String
  not_sync_list : List String
  delete_list : List String
  restore_list : List String
  not_restored_list : List String

/-- The two classification loops of `sync_func` (olsync.py lines
297-323). The first loop appends each name of `files_from`, in order, to
exactly one of the four from-side lists according to `classifyFrom`; the
second loop appends each name of `deleted_files`, in order, to exactly
one of the three deletion lists according to the prompted choice. An
order-preserving one-of-n append is exactly a filter by the
classification of the name. -/
def classify (env : SyncEnv) (files_from deleted_files : List String) : Classified where
  newly_add_list := files_from.filter (fun n => decide (classifyFrom env n = FromClass.create))
  update_list := files_from.filter (fun n => decide (classifyFrom env n = FromClass.update))
  synced_list := files_from.filter (fun n => decide (classifyFrom env n = FromClass.synced))
  not_sync_list := files_from.filter (fun n => decide (classifyFrom env n = FromClass.skipped))
  delete_list := deleted_files.filter (fun n => decide (env.decide_deletion n = Choice.d))
  restore_list := deleted_files.filter (fun n => decide (env.decide_deletion n = Choice.r))
  not_restored_list := deleted_files.filter (fun n => decide (env.decide_deletion n = Choice.i))

/-! ## Synchronization engine: application (olsync.py lines 325-371) -/

/-- One applied action of `sync_func`: `CREATE` = `create_file_at_to` on a
`newly_add_list` name (olsync.py lines 325-335), `RESTORE` =
`create_file_at_from` on a `restore_list` name (lines 337-347), `UPDATE`
= `create_file_at_to` on an `update_list` name (lines 349-359), `DELETE`
= `delete_file_at_to` on a `delete_list` name (lines 361-371). -/
inductive AppliedAction where
  | CREATE (name : String)
  | RESTORE (name : String)
  | UPDATE (name : String)
  | DELETE (name : String)
deriving DecidableEq, Repr

/-- The position of an action's application loop in `sync_func`:
the four loops run in source order CREATE, RESTORE, UPDATE, DELETE
(olsync.py lines 325-371). -/
def rank : AppliedAction → Nat
  | AppliedAction.CREATE _ => 0
  | AppliedAction.RESTORE _ => 1
  | AppliedAction.UPDATE _ => 2
  | AppliedAction.DELETE _ => 3

/-- The full ordered sequence of actions `sync_func` attempts: the four
application loops concatenated in source order (olsync.py lines
325-371). -/
def plan (c : Classified) : List AppliedAction :=
  c.newly_add_list.map AppliedAction.CREATE
    ++ c.restore_list.map AppliedAction.RESTORE
    ++ c.update_list.map AppliedAction.UPDATE
    ++ c.delete_list.map AppliedAction.DELETE

/-- The fail-fast attempt semantics of the application loops: each
callback invocation is wrapped in `try ... except` that raises
`click.ClickException`, aborting everything after the failing action
(olsync.py lines 329-335 and the three analogous blocks). `attempt`
returns the list of actions whose callback was invoked: on the first
action for which `fails` holds, that action is still attempted (its
callback ran and raised) and the remainder is abandoned. -/
def attempt (fails : AppliedAction → Bool) : List AppliedAction → List AppliedAction
  | [] => []
  | a :: rest => if fails a then [a] else a :: attempt fails rest

/-! ## Closed-world instantiation of the engine (olsync.py lines 100-142)

`main` wires `sync_func` to a concrete pair of file trees: one side is
the local directory listing, the other the remote zip snapshot. Both are
name-to-byte-content maps; we model each as an association list and the
caller's lambdas (olsync.py lines 110-142) over it. -/

/-- A file tree side: association list from relative path name to byte
content. -/
abbrev FileMap := List (String × String)

/-- First-match lookup in an association list, the model of reading the
file stored under a name (dict/listing access in the Python callers). -/
def lookupKey {α : Type} (n : String) : List (String × α) → Option α
  | [] => none
  | (k, v) :: rest => if k = n then some v else lookupKey n rest

/-- Write `content` under name `n`, replacing an existing entry: the model
of `write_file` (olsync.py lines 272-282) and of a remote upload, both of
which overwrite the file stored under the name. -/
def upsert (l : FileMap) (n content : String) : FileMap :=
  match l with
  | [] => [(n, content)]
  | (k, v) :: rest => if k = n then (k, content) :: rest else (k, v) :: upsert rest n content

/-- Remove every entry stored under name `n`: the model of `delete_file`
(olsync.py lines 261-269) and of a remote delete. Deleting an absent name
is a no-op, matching the silent-no-op behavior of both deleters. -/
def eraseKey (n : String) (l : FileMap) : FileMap :=
  l.filter (fun p => decide (p.1 ≠ n))

/-- The two sides `sync_func` acts on: the authoritative "from" tree and
the observable "to" tree. -/
structure World where
  fromS : FileMap
  toS : FileMap

/-- The interactive and temporal inputs that are not functions of the
file contents: the `click.confirm` answer, the `click.prompt` deletion
choice, and the `from_newer_than_to` timestamp comparison (olsync.py
lines 118 and 138-139), which reads modification times and the project's
`lastUpdated` stamp rather than file bytes. -/
structure Decider where
  confirm : String → Bool
  decide_del : String → Choice
  fromNewer : String → Bool

/-- `files_from` as the caller passes it (olsync.py lines 110 and 130):
the enumeration of names on the "from" side. -/
def filesFrom (w : World) : List String := w.fromS.map Prod.fst

/-- `deleted_files` as the caller passes it in a one-direction run
(olsync.py lines 111 and 131): the names present on "to" and absent from
the "from" enumeration. -/
def deletedNames (w : World) : List String :=
  (w.toS.map Prod.fst).filter (fun n => decide (¬ n ∈ filesFrom w))

/-- The caller's predicate lambdas over a concrete world (olsync.py lines
116-118 and 136-139): existence is presence on the "to" side, equality is
byte equality of the two stored contents, newer and the two interactive
answers come from the `Decider`. -/
def worldEnv (w : World) (d : Decider) : SyncEnv where
  from_exists_in_to := fun n => (lookupKey n w.toS).isSome
  from_equal_to_to := fun n => decide (lookupKey n w.fromS = lookupKey n w.toS)
  from_newer_than_to := d.fromNewer
  confirm_overwrite := d.confirm
  decide_deletion := d.decide_del

/-- Effect of one applied action on the world (olsync.py lines 112-115
and 132-135): `CREATE`/`UPDATE` write the "from" content under the name
on "to" (`create_file_at_to`), `RESTORE` writes the "to" content under
the name on "from" (`create_file_at_from`), `DELETE` removes the name on
"to" (`delete_file_at_to`). -/
def applyAction (w : World) : AppliedAction → World
  | AppliedAction.CREATE n =>
      { w with toS := upsert w.toS n ((lookupKey n w.fromS).getD "") }
  | AppliedAction.UPDATE n =>
      { w with toS := upsert w.toS n ((lookupKey n w.fromS).getD "") }
  | AppliedAction.RESTORE n =>
      { w with fromS := upsert w.fromS n ((lookupKey n w.toS).getD "") }
  | AppliedAction.DELETE n =>
      { w with toS := eraseKey n w.toS }

/-- One failure-free engine run over a concrete world: classify from the
current state (olsync.py lines 297-323), then apply the planned actions
in source order (lines 325-371). -/
def runSync (w : World) (d : Decider) : World :=
  (plan (classify (worldEnv w d) (filesFrom w) (deletedNames w))).foldl applyAction w

/-! ## Basic lemmas about the embedding -/

lemma lookupKey_upsert_self (l : FileMap) (n c : String) :
    lookupKey n (upsert l n c) = some c := by
  induction l with
  | nil => simp [upsert, lookupKey]
  | cons p rest ih =>
    obtain ⟨k, v⟩ := p
    by_cases h : k = n
    · subst h
      simp [upsert, lookupKey]
    · simp [upsert, lookupKey, h, ih]

lemma lookupKey_upsert_ne (l : FileMap) (n c m : String) (h : m ≠ n) :
    lookupKey m (upsert l n c) = lookupKey m l := by
  induction l with
  | nil =>
    have hn : ¬ n = m := fun hh => h hh.symm
    simp [upsert, lookupKey, hn]
  | cons p rest ih =>
    obtain ⟨k, v⟩ := p
    by_cases hk : k = n
    · subst hk
      have hkm : ¬ k = m := fun hh => h hh.symm
      simp [upsert, lookupKey, hkm]
    · by_cases hm : k = m
      · subst hm
        simp [upsert, lookupKey, hk]
      · simp [upsert, lookupKey, hk, hm, ih]

lemma lookupKey_eraseKey_self (l : FileMap) (n : String) :
    lookupKey n (eraseKey n l) = none := by
  induction l with
  | nil => simp [eraseKey, lookupKey]
  | cons p rest ih =>
    obtain ⟨k, v⟩ := p
    by_cases h : k = n
    · subst h
      simpa [eraseKey, lookupKey] using ih
    · simpa [eraseKey, lookupKey, h] using ih

lemma lookupKey_eraseKey_ne (l : FileMap) (n m : String) (h : m ≠ n) :
    lookupKey m (eraseKey n l) = lookupKey m l := by
  induction l with
  | nil => simp [eraseKey, lookupKey]
  | cons p rest ih =>
    obtain ⟨k, v⟩ := p
    by_cases hk : k = n
    · subst hk
      have : ¬ k = m := fun hh => h (hh ▸ rfl)
      simpa [eraseKey, lookupKey, this] using ih
    · by_cases hm : k = m
      · subst hm
        simp [eraseKey, lookupKey, hk]
      · simpa [eraseKey, lookupKey, hk, hm] using ih

lemma mem_map_fst_iff_lookup (n : String) (l : FileMap) :
    n ∈ l.map Prod.fst ↔ (lookupKey n l).isSome := by
  induction l with
  | nil => simp [lookupKey]
  | cons p rest ih =>
    obtain ⟨k, v⟩ := p
    by_cases h : k = n
    · subst h
      simp [lookupKey]
    · have : ¬ n = k := fun hh => h (hh ▸ rfl)
      simp [lookupKey, h, this, ih]

lemma mem_filesFrom_iff (w : World) (n : String) :
    n ∈ filesFrom w ↔ (lookupKey n w.fromS).isSome :=
  mem_map_fst_iff_lookup n w.fromS

lemma mem_deletedNames_iff (w : World) (n : String) :
    n ∈ deletedNames w ↔ ((lookupKey n w.toS).isSome ∧ ¬ (lookupKey n w.fromS).isSome) := by
  unfold deletedNames
  rw [List.mem_filter, decide_eq_true_eq, mem_map_fst_iff_lookup, mem_filesFrom_iff]

/-! Classification characterizations: how the nested conditionals of the
first loop of `sync_func` (olsync.py lines 297-310) determine each
outcome. -/

lemma classifyFrom_create_iff (env : SyncEnv) (n : String) :
    classifyFrom env n = FromClass.create ↔ env.from_exists_in_to n = false := by
  unfold classifyFrom
  cases h1 : env.from_exists_in_to n <;> cases h2 : env.from_equal_to_to n <;>
    cases h3 : env.from_newer_than_to n <;> cases h4 : env.confirm_overwrite n <;>
    simp [h1, h2, h3, h4]

lemma classifyFrom_synced_iff (env : SyncEnv) (n : String) :
    classifyFrom env n = FromClass.synced ↔
      (env.from_exists_in_to n = true ∧ env.from_equal_to_to n = true) := by
  unfold classifyFrom
  cases h1 : env.from_exists_in_to n <;> cases h2 : env.from_equal_to_to n <;>
    cases h3 : env.from_newer_than_to n <;> cases h4 : env.confirm_overwrite n <;>
    simp [h1, h2, h3, h4]

lemma classifyFrom_update_iff (env : SyncEnv) (n : String) :
    classifyFrom env n = FromClass.update ↔
      (env.from_exists_in_to n = true ∧ env.from_equal_to_to n = false ∧
        (env.from_newer_than_to n = true ∨ env.confirm_overwrite n = true)) := by
  unfold classifyFrom
  cases h1 : env.from_exists_in_to n <;> cases h2 : env.from_equal_to_to n <;>
    cases h3 : env.from_newer_than_to n <;> cases h4 : env.confirm_overwrite n <;>
    simp [h1, h2, h3, h4]

lemma classifyFrom_skipped_iff (env : SyncEnv) (n : String) :
    classifyFrom env n = FromClass.skipped ↔
      (env.from_exists_in_to n = true ∧ env.from_equal_to_to n = false ∧
        env.from_newer_than_to n = false ∧ env.confirm_overwrite n = false) := by
  unfold classifyFrom
  cases h1 : env.from_exists_in_to n <;> cases h2 : env.from_equal_to_to n <;>
    cases h3 : env.from_newer_than_to n <;> cases h4 : env.confirm_overwrite n <;>
    simp [h1, h2, h3, h4]

/-! Membership in each classification list. -/

lemma mem_newly_iff (env : SyncEnv) (ff dd : List String) (n : String) :
    n ∈ (classify env ff dd).newly_add_list ↔
      (n ∈ ff ∧ classifyFrom env n = FromClass.create) := by
  simp [classify, List.mem_filter]

lemma mem_update_iff (env : SyncEnv) (ff dd : List String) (n : String) :
    n ∈ (classify env ff dd).update_list ↔
      (n ∈ ff ∧ classifyFrom env n = FromClass.update) := by
  simp [classify, List.mem_filter]

lemma mem_synced_iff (env : SyncEnv) (ff dd : List String) (n : String) :
    n ∈ (classify env ff dd).synced_list ↔
      (n ∈ ff ∧ classifyFrom env n = FromClass.synced) := by
  simp [classify, List.mem_filter]

lemma mem_skipped_iff (env : SyncEnv) (ff dd : List String) (n : String) :
    n ∈ (classify env ff dd).not_sync_list ↔
      (n ∈ ff ∧ classifyFrom env n = FromClass.skipped) := by
  simp [classify, List.mem_filter]

lemma mem_delete_iff (env : SyncEnv) (ff dd : List String) (n : String) :
    n ∈ (classify env ff dd).delete_list ↔
      (n ∈ dd ∧ env.decide_deletion n = Choice.d) := by
  simp [classify, List.mem_filter]

lemma mem_restore_iff (env : SyncEnv) (ff dd : List String) (n : String) :
    n ∈ (classify env ff dd).restore_list ↔
      (n ∈ dd ∧ env.decide_deletion n = Choice.r) := by
  simp [classify, List.mem_filter]

lemma mem_ignored_iff (env : SyncEnv) (ff dd : List String) (n : String) :
    n ∈ (classify env ff dd).not_restored_list ↔
      (n ∈ dd ∧ env.decide_deletion n = Choice.i) := by
  simp [classify, List.mem_filter]

/-! ## Effect of each application loop on the world

Each of the four loops of olsync.py lines 325-371 applies one kind of
action to a list of names. The following lemmas characterize the
resulting world by lookups. -/

lemma create_block (ns : List String) : ∀ (w₀ : World) (m : String),
    ((ns.map AppliedAction.CREATE).foldl applyAction w₀).fromS = w₀.fromS ∧
    lookupKey m ((ns.map AppliedAction.CREATE).foldl applyAction w₀).toS
      = if m ∈ ns then some ((lookupKey m w₀.fromS).getD "") else lookupKey m w₀.toS := by
  induction ns with
  | nil => intro w₀ m; simp
  | cons n rest ih =>
    intro w₀ m
    simp only [List.map_cons, List.foldl_cons]
    have h1 := ih (applyAction w₀ (AppliedAction.CREATE n)) m
    refine ⟨by rw [h1.1]; rfl, ?_⟩
    rw [h1.2]
    show (if m ∈ rest then some ((lookupKey m w₀.fromS).getD "")
          else lookupKey m (upsert w₀.toS n ((lookupKey n w₀.fromS).getD ""))) = _
    by_cases hr : m ∈ rest
    · simp [hr, List.mem_cons]
    · by_cases hm : m = n
      · subst hm
        simp [hr, lookupKey_upsert_self]
      · simp [hr, hm, lookupKey_upsert_ne _ _ _ _ hm]

lemma update_block (ns : List String) : ∀ (w₀ : World) (m : String),
    ((ns.map AppliedAction.UPDATE).foldl applyAction w₀).fromS = w₀.fromS ∧
    lookupKey m ((ns.map AppliedAction.UPDATE).foldl applyAction w₀).toS
      = if m ∈ ns then some ((lookupKey m w₀.fromS).getD "") else lookupKey m w₀.toS := by
  induction ns with
  | nil => intro w₀ m; simp
  | cons n rest ih =>
    intro w₀ m
    simp only [List.map_cons, List.foldl_cons]
    have h1 := ih (applyAction w₀ (AppliedAction.UPDATE n)) m
    refine ⟨by rw [h1.1]; rfl, ?_⟩
    rw [h1.2]
    show (if m ∈ rest then some ((lookupKey m w₀.fromS).getD "")
          else lookupKey m (upsert w₀.toS n ((lookupKey n w₀.fromS).getD ""))) = _
    by_cases hr : m ∈ rest
    · simp [hr, List.mem_cons]
    · by_cases hm : m = n
      · subst hm
        simp [hr, lookupKey_upsert_self]
      · simp [hr, hm, lookupKey_upsert_ne _ _ _ _ hm]

lemma restore_block (ns : List String) : ∀ (w₀ : World) (m : String),
    ((ns.map AppliedAction.RESTORE).foldl applyAction w₀).toS = w₀.toS ∧
    lookupKey m ((ns.map AppliedAction.RESTORE).foldl applyAction w₀).fromS
      = if m ∈ ns then some ((lookupKey m w₀.toS).getD "") else lookupKey m w₀.fromS := by
  induction ns with
  | nil => intro w₀ m; simp
  | cons n rest ih =>
    intro w₀ m
    simp only [List.map_cons, List.foldl_cons]
    have h1 := ih (applyAction w₀ (AppliedAction.RESTORE n)) m
    refine ⟨by rw [h1.1]; rfl, ?_⟩
    rw [h1.2]
    show (if m ∈ rest then some ((lookupKey m w₀.toS).getD "")
          else lookupKey m (upsert w₀.fromS n ((lookupKey n w₀.toS).getD ""))) = _
    by_cases hr : m ∈ rest
    · simp [hr, List.mem_cons]
    · by_cases hm : m = n
      · subst hm
        simp [hr, lookupKey_upsert_self]
      · simp [hr, hm, lookupKey_upsert_ne _ _ _ _ hm]

lemma delete_block (ns : List String) : ∀ (w₀ : World) (m : String),
    ((ns.map AppliedAction.DELETE).foldl applyAction w₀).fromS = w₀.fromS ∧
    lookupKey m ((ns.map AppliedAction.DELETE).foldl applyAction w₀).toS
      = if m ∈ ns then none else lookupKey m w₀.toS := by
  induction ns with
  | nil => intro w₀ m; simp
  | cons n rest ih =>
    intro w₀ m
    simp only [List.map_cons, List.foldl_cons]
    have h1 := ih (applyAction w₀ (AppliedAction.DELETE n)) m
    refine ⟨by rw [h1.1]; rfl, ?_⟩
    rw [h1.2]
    show (if m ∈ rest then none else lookupKey m (eraseKey n w₀.toS)) = _
    by_cases hr : m ∈ rest
    · simp [hr, List.mem_cons]
    · by_cases hm : m = n
      · subst hm
        simp [hr, lookupKey_eraseKey_self]
      · simp [hr, hm, lookupKey_eraseKey_ne _ _ _ hm]

/-! ## State after a full engine run -/

lemma runSync_fromS_lookup (w : World) (d : Decider) (m : String) :
    lookupKey m (runSync w d).fromS =
      if m ∈ (classify (worldEnv w d) (filesFrom w) (deletedNames w)).restore_list
      then some ((lookupKey m w.toS).getD "")
      else lookupKey m w.fromS := by
  unfold runSync plan
  rw [List.foldl_append, List.foldl_append, List.foldl_append]
  set c := classify (worldEnv w d) (filesFrom w) (deletedNames w) with hc
  set wA := (c.newly_add_list.map AppliedAction.CREATE).foldl applyAction w with hwA
  set wB := (c.restore_list.map AppliedAction.RESTORE).foldl applyAction wA with hwB
  set wC := (c.update_list.map AppliedAction.UPDATE).foldl applyAction wB with hwC
  rw [(delete_block c.delete_list wC m).1, (update_block c.update_list wB m).1,
    (restore_block c.restore_list wA m).2, (create_block c.newly_add_list w m).1]
  by_cases hr : m ∈ c.restore_list
  · have hdel : m ∈ deletedNames w := ((mem_restore_iff _ _ _ m).mp hr).1
    have hnotfrom : ¬ (lookupKey m w.fromS).isSome :=
      ((mem_deletedNames_iff w m).mp hdel).2
    have hnotff : ¬ m ∈ filesFrom w := by
      rw [mem_filesFrom_iff]; exact hnotfrom
    have hnnew : ¬ m ∈ c.newly_add_list := by
      rw [mem_newly_iff]; exact fun hcon => hnotff hcon.1
    rw [if_pos hr, if_pos hr, (create_block c.newly_add_list w m).2, if_neg hnnew]
  · rw [if_neg hr, if_neg hr]

lemma runSync_toS_lookup (w : World) (d : Decider) (m : String) :
    lookupKey m (runSync w d).toS =
      if m ∈ (classify (worldEnv w d) (filesFrom w) (deletedNames w)).delete_list
      then none
      else if m ∈ (classify (worldEnv w d) (filesFrom w) (deletedNames w)).newly_add_list
            ∨ m ∈ (classify (worldEnv w d) (filesFrom w) (deletedNames w)).update_list
      then some ((lookupKey m w.fromS).getD "")
      else lookupKey m w.toS := by
  unfold runSync plan
  rw [List.foldl_append, List.foldl_append, List.foldl_append]
  set c := classify (worldEnv w d) (filesFrom w) (deletedNames w) with hc
  set wA := (c.newly_add_list.map AppliedAction.CREATE).foldl applyAction w with hwA
  set wB := (c.restore_list.map AppliedAction.RESTORE).foldl applyAction wA with hwB
  set wC := (c.update_list.map AppliedAction.UPDATE).foldl applyAction wB with hwC
  rw [(delete_block c.delete_list wC m).2, (update_block c.update_list wB m).2,
    (restore_block c.restore_list wA m).1, (create_block c.newly_add_list w m).2]
  by_cases hd : m ∈ c.delete_list
  · rw [if_pos hd, if_pos hd]
  · rw [if_neg hd, if_neg hd]
    by_cases hu : m ∈ c.update_list
    · have hff : m ∈ filesFrom w := ((mem_update_iff _ _ _ m).mp hu).1
      have hfrom : (lookupKey m w.fromS).isSome := (mem_filesFrom_iff w m).mp hff
      have hnotdel : ¬ m ∈ deletedNames w := by
        rw [mem_deletedNames_iff]; exact fun hcon => hcon.2 hfrom
      have hnr : ¬ m ∈ c.restore_list := by
        rw [mem_restore_iff]; exact fun hcon => hnotdel hcon.1
      rw [if_pos hu, if_pos (Or.inr hu)]
      have h2 : lookupKey m wB.fromS = lookupKey m w.fromS := by
        rw [(restore_block c.restore_list wA m).2, if_neg hnr,
          (create_block c.newly_add_list w m).1]
      rw [h2]
    · rw [if_neg hu]
      by_cases hn : m ∈ c.newly_add_list
      · rw [if_pos (Or.inl hn), if_pos hn]
      · rw [if_neg hn, if_neg (fun hcon => hcon.elim hn hu)]

/-! ## Claim C1 -/

/-- C1: for every name in the "from" enumeration, `sync_func` classifies
by this rule (olsync.py lines 297-310): not existing on "to" gives
CREATE; existing with byte-equal content gives SYNCED regardless of
modification times; existing with differing content and "from" newer
gives UPDATE; otherwise the overwrite confirmation is asked, a declined
confirmation gives SKIPPED and a confirmed one gives UPDATE. In a
concrete world, a name classified SYNCED or SKIPPED has its "to"-side
entry unchanged by the whole run (no operation applied). -/
theorem c1_classification_rule (env : SyncEnv) (n : String) :
    (env.from_exists_in_to n = false → classifyFrom env n = FromClass.create)
  ∧ (env.from_exists_in_to n = true → env.from_equal_to_to n = true →
      classifyFrom env n = FromClass.synced)
  ∧ (env.from_exists_in_to n = true → env.from_equal_to_to n = false →
      env.from_newer_than_to n = true → classifyFrom env n = FromClass.update)
  ∧ (env.from_exists_in_to n = true → env.from_equal_to_to n = false →
      env.from_newer_than_to n = false →
        ((env.confirm_overwrite n = false → classifyFrom env n = FromClass.skipped)
      ∧ (env.confirm_overwrite n = true → classifyFrom env n = FromClass.update)))
  ∧ (∀ (w : World) (d : Decider), n ∈ filesFrom w →
      (classifyFrom (worldEnv w d) n = FromClass.synced ∨
        classifyFrom (worldEnv w d) n = FromClass.skipped) →
      lookupKey n (runSync w d).toS = lookupKey n w.toS) := by
  refine ⟨?_, ?_, ?_, ?_, ?_⟩
  · intro h1
    exact (classifyFrom_create_iff env n).mpr h1
  · intro h1 h2
    exact (classifyFrom_synced_iff env n).mpr ⟨h1, h2⟩
  · intro h1 h2 h3
    exact (classifyFrom_update_iff env n).mpr ⟨h1, h2, Or.inl h3⟩
  · intro h1 h2 h3
    exact ⟨fun h4 => (classifyFrom_skipped_iff env n).mpr ⟨h1, h2, h3, h4⟩,
      fun h4 => (classifyFrom_update_iff env n).mpr ⟨h1, h2, Or.inr h4⟩⟩
  · intro w d hf hcls
    have hnc : classifyFrom (worldEnv w d) n ≠ FromClass.create := by
      rcases hcls with h | h <;> simp [h]
    have hnu : classifyFrom (worldEnv w d) n ≠ FromClass.update := by
      rcases hcls with h | h <;> simp [h]
    have hnotdel : ¬ n ∈ deletedNames w := by
      rw [mem_deletedNames_iff]
      exact fun hcon => hcon.2 ((mem_filesFrom_iff w n).mp hf)
    rw [runSync_toS_lookup w d n,
      if_neg (fun hcon => hnotdel ((mem_delete_iff _ _ _ n).mp hcon).1),
      if_neg (fun hcon => hcon.elim
        (fun hx => hnc ((mem_newly_iff _ _ _ n).mp hx).2)
        (fun hx => hnu ((mem_update_iff _ _ _ n).mp hx).2))]

/-- Witness for C1: each branch of the rule exercised at name "a", and
the non-mutation conclusion at a concrete world whose single file is
identical on both sides. -/
theorem c1_classification_rule_witness :
    classifyFrom (SyncEnv.mk (fun _ => false) (fun _ => false) (fun _ => false)
        (fun _ => false) (fun _ => Choice.i)) "a" = FromClass.create
  ∧ classifyFrom (SyncEnv.mk (fun _ => true) (fun _ => true) (fun _ => false)
        (fun _ => false) (fun _ => Choice.i)) "a" = FromClass.synced
  ∧ classifyFrom (SyncEnv.mk (fun _ => true) (fun _ => false) (fun _ => true)
        (fun _ => false) (fun _ => Choice.i)) "a" = FromClass.update
  ∧ classifyFrom (SyncEnv.mk (fun _ => true) (fun _ => false) (fun _ => false)
        (fun _ => false) (fun _ => Choice.i)) "a" = FromClass.skipped
  ∧ classifyFrom (SyncEnv.mk (fun _ => true) (fun _ => false) (fun _ => false)
        (fun _ => true) (fun _ => Choice.i)) "a" = FromClass.update
  ∧ lookupKey "a" (runSync (World.mk [("a", "x")] [("a", "x")])
        (Decider.mk (fun _ => false) (fun _ => Choice.i) (fun _ => false))).toS
      = lookupKey "a" (World.mk [("a", "x")] [("a", "x")]).toS :=
  ⟨(c1_classification_rule _ "a").1 rfl,
   (c1_classification_rule _ "a").2.1 rfl rfl,
   (c1_classification_rule _ "a").2.2.1 rfl rfl rfl,
   ((c1_classification_rule _ "a").2.2.2.1 rfl rfl rfl).1 rfl,
   ((c1_classification_rule _ "a").2.2.2.1 rfl rfl rfl).2 rfl,
   (c1_classification_rule (SyncEnv.mk (fun _ => false) (fun _ => false) (fun _ => false)
        (fun _ => false) (fun _ => Choice.i)) "a").2.2.2.2
      (World.mk [("a", "x")] [("a", "x")])
      (Decider.mk (fun _ => false) (fun _ => Choice.i) (fun _ => false))
      (by decide) (Or.inl (by decide))⟩

/-! ## Claim C2 -/

lemma attempt_append_eq (fails : AppliedAction → Bool) (l : List AppliedAction) :
    ∃ r, attempt fails l ++ r = l := by
  induction l with
  | nil => exact ⟨[], rfl⟩
  | cons a rest ih =>
    by_cases h : fails a
    · exact ⟨rest, by simp [attempt, h]⟩
    · obtain ⟨r, hr⟩ := ih
      exact ⟨r, by simp [attempt, h, hr]⟩

lemma rank_mem_create {a : AppliedAction} {l : List String}
    (h : a ∈ l.map AppliedAction.CREATE) : rank a = 0 := by
  obtain ⟨n, _, rfl⟩ := List.mem_map.mp h; rfl

lemma rank_mem_restore {a : AppliedAction} {l : List String}
    (h : a ∈ l.map AppliedAction.RESTORE) : rank a = 1 := by
  obtain ⟨n, _, rfl⟩ := List.mem_map.mp h; rfl

lemma rank_mem_update {a : AppliedAction} {l : List String}
    (h : a ∈ l.map AppliedAction.UPDATE) : rank a = 2 := by
  obtain ⟨n, _, rfl⟩ := List.mem_map.mp h; rfl

lemma rank_mem_delete {a : AppliedAction} {l : List String}
    (h : a ∈ l.map AppliedAction.DELETE) : rank a = 3 := by
  obtain ⟨n, _, rfl⟩ := List.mem_map.mp h; rfl

lemma pairwise_rank_const (r : Nat) (l : List AppliedAction)
    (h : ∀ a ∈ l, rank a = r) : l.Pairwise (fun a b => rank a ≤ rank b) := by
  induction l with
  | nil => exact List.Pairwise.nil
  | cons a t ih =>
    refine List.Pairwise.cons (fun b hb => ?_) (ih (fun x hx => h x (List.mem_cons_of_mem _ hx)))
    rw [h a (List.mem_cons_self _ _), h b (List.mem_cons_of_mem _ hb)]

/-- The planned action sequence of `sync_func` is sorted by application
loop: CREATE before RESTORE before UPDATE before DELETE (olsync.py lines
325-371). -/
lemma plan_rank_sorted (c : Classified) :
    (plan c).Pairwise (fun a b => rank a ≤ rank b) := by
  unfold plan
  rw [List.pairwise_append, List.pairwise_append, List.pairwise_append]
  refine ⟨⟨⟨pairwise_rank_const 0 _ (fun a ha => rank_mem_create ha),
      pairwise_rank_const 1 _ (fun a ha => rank_mem_restore ha), ?_⟩,
      pairwise_rank_const 2 _ (fun a ha => rank_mem_update ha), ?_⟩,
      pairwise_rank_const 3 _ (fun a ha => rank_mem_delete ha), ?_⟩
  · intro a ha b hb
    rw [rank_mem_create ha, rank_mem_restore hb]
    omega
  · intro a ha b hb
    rw [rank_mem_update hb]
    rcases List.mem_append.mp ha with h | h
    · rw [rank_mem_create h]; omega
    · rw [rank_mem_restore h]; omega
  · intro a ha b hb
    rw [rank_mem_delete hb]
    rcases List.mem_append.mp ha with h | h
    · rcases List.mem_append.mp h with h2 | h2
      · rw [rank_mem_create h2]; omega
      · rw [rank_mem_restore h2]; omega
    · rw [rank_mem_update h]; omega

/-- C2: in every engine run, the attempted actions follow the group order
all CREATE, then all RESTORE, then all UPDATE, then all DELETE (olsync.py
lines 325-371): the attempted sequence is sorted by group rank, and an
action of a later group is attempted only if every planned action of each
earlier group was already attempted. -/
theorem c2_application_order (env : SyncEnv) (files deleted : List String)
    (fails : AppliedAction → Bool) :
    (attempt fails (plan (classify env files deleted))).Pairwise
      (fun a b => rank a ≤ rank b)
  ∧ ∀ a b, a ∈ plan (classify env files deleted) →
      b ∈ attempt fails (plan (classify env files deleted)) →
      rank a < rank b →
      a ∈ attempt fails (plan (classify env files deleted)) := by
  obtain ⟨r, hr⟩ := attempt_append_eq fails (plan (classify env files deleted))
  have hsort := plan_rank_sorted (classify env files deleted)
  constructor
  · have hsub := List.sublist_append_left
      (attempt fails (plan (classify env files deleted))) r
    rw [hr] at hsub
    exact hsort.sublist hsub
  · intro a b ha hb hlt
    rw [← hr] at ha
    rcases List.mem_append.mp ha with h | h
    · exact h
    · exfalso
      rw [← hr] at hsort
      have hle := (List.pairwise_append.mp hsort).2.2 b hb a h
      omega

/-- Witness for C2: in a run that classifies "x" CREATE and "y" UPDATE
with no failures, the planned CREATE is among the attempted actions,
obtained from the ordering theorem with the attempted UPDATE of higher
rank. -/
theorem c2_application_order_witness :
    AppliedAction.CREATE "x" ∈ attempt (fun _ => false)
      (plan (classify (SyncEnv.mk (fun n => n == "y") (fun _ => false) (fun _ => true)
        (fun _ => false) (fun _ => Choice.i)) ["x", "y"] [])) :=
  (c2_application_order (SyncEnv.mk (fun n => n == "y") (fun _ => false) (fun _ => true)
      (fun _ => false) (fun _ => Choice.i)) ["x", "y"] [] (fun _ => false)).2
    (AppliedAction.CREATE "x") (AppliedAction.UPDATE "y")
    (by decide) (by decide) (by decide)

/-! ## Claim C3 -/

/-- C3: in every engine run, each name of the "from" enumeration lies in
exactly one of the four from-side lists {newly_add_list, update_list,
synced_list, not_sync_list} (CREATE, UPDATE, SYNCED, SKIPPED), and each
name of the "deleted" set lies in exactly one of the three deletion lists
{delete_list, restore_list, not_restored_list} (DELETE, RESTORE,
IGNORED) (olsync.py lines 297-323). -/
theorem c3_exactly_one_classification (env : SyncEnv) (files deleted : List String)
    (n : String) :
    (n ∈ files →
      (if n ∈ (classify env files deleted).newly_add_list then 1 else 0)
        + (if n ∈ (classify env files deleted).update_list then 1 else 0)
        + (if n ∈ (classify env files deleted).synced_list then 1 else 0)
        + (if n ∈ (classify env files deleted).not_sync_list then 1 else 0) = 1)
  ∧ (n ∈ deleted →
      (if n ∈ (classify env files deleted).delete_list then 1 else 0)
        + (if n ∈ (classify env files deleted).restore_list then 1 else 0)
        + (if n ∈ (classify env files deleted).not_restored_list then 1 else 0) = 1) := by
  constructor
  · intro hf
    cases h : classifyFrom env n <;>
      simp [mem_newly_iff, mem_update_iff, mem_synced_iff, mem_skipped_iff, hf, h]
  · intro hd
    cases h : env.decide_deletion n <;>
      simp [mem_delete_iff, mem_restore_iff, mem_ignored_iff, hd, h]

/-- Witness for C3 at a concrete run: name "a" in the "from" enumeration
and name "b" in the "deleted" set each receive exactly one
classification. -/
theorem c3_exactly_one_classification_witness :
    ((if "a" ∈ (classify (SyncEnv.mk (fun _ => false) (fun _ => false) (fun _ => false)
        (fun _ => false) (fun _ => Choice.i)) ["a"] ["b"]).newly_add_list then 1 else 0)
      + (if "a" ∈ (classify (SyncEnv.mk (fun _ => false) (fun _ => false) (fun _ => false)
        (fun _ => false) (fun _ => Choice.i)) ["a"] ["b"]).update_list then 1 else 0)
      + (if "a" ∈ (classify (SyncEnv.mk (fun _ => false) (fun _ => false) (fun _ => false)
        (fun _ => false) (fun _ => Choice.i)) ["a"] ["b"]).synced_list then 1 else 0)
      + (if "a" ∈ (classify (SyncEnv.mk (fun _ => false) (fun _ => false) (fun _ => false)
        (fun _ => false) (fun _ => Choice.i)) ["a"] ["b"]).not_sync_list then 1 else 0) = 1)
  ∧ ((if "b" ∈ (classify (SyncEnv.mk (fun _ => false) (fun _ => false) (fun _ => false)
        (fun _ => false) (fun _ => Choice.i)) ["a"] ["b"]).delete_list then 1 else 0)
      + (if "b" ∈ (classify (SyncEnv.mk (fun _ => false) (fun _ => false) (fun _ => false)
        (fun _ => false) (fun _ => Choice.i)) ["a"] ["b"]).restore_list then 1 else 0)
      + (if "b" ∈ (classify (SyncEnv.mk (fun _ => false) (fun _ => false) (fun _ => false)
        (fun _ => false) (fun _ => Choice.i)) ["a"] ["b"]).not_restored_list then 1 else 0) = 1) :=
  ⟨(c3_exactly_one_classification _ ["a"] ["b"] "a").1 (by decide),
   (c3_exactly_one_classification _ ["a"] ["b"] "b").2 (by decide)⟩

/-! ## Claim C4 -/

/-- C4 (amended): after a failure-free engine run over a concrete world,
a second run with the resulting state classifies every "from" name SYNCED
or SKIPPED, decides IGNORE for every "deleted" name, plans no action, and
leaves the world unchanged. (The original claim's "SYNCED or IGNORED" is
refuted by `c4_second_run_counterexample`: a file skipped on the first
run is classified SKIPPED again on the second run.) -/
theorem c4_second_run_stable (w : World) (d : Decider) :
    (∀ n, n ∈ filesFrom (runSync w d) →
      (classifyFrom (worldEnv (runSync w d) d) n = FromClass.synced ∨
        classifyFrom (worldEnv (runSync w d) d) n = FromClass.skipped))
  ∧ (∀ n, n ∈ deletedNames (runSync w d) → d.decide_del n = Choice.i)
  ∧ plan (classify (worldEnv (runSync w d) d) (filesFrom (runSync w d))
      (deletedNames (runSync w d))) = []
  ∧ runSync (runSync w d) d = runSync w d := by
  have partA : ∀ n, n ∈ filesFrom (runSync w d) →
      (classifyFrom (worldEnv (runSync w d) d) n = FromClass.synced ∨
        classifyFrom (worldEnv (runSync w d) d) n = FromClass.skipped) := by
    intro n hn
    rw [mem_filesFrom_iff] at hn
    by_cases hres :
        n ∈ (classify (worldEnv w d) (filesFrom w) (deletedNames w)).restore_list
    · left
      have hdel : n ∈ deletedNames w := ((mem_restore_iff _ _ _ n).mp hres).1
      have hdel2 := (mem_deletedNames_iff w n).mp hdel
      obtain ⟨c, hc⟩ := Option.isSome_iff_exists.mp hdel2.1
      have hnotff : ¬ n ∈ filesFrom w := by
        rw [mem_filesFrom_iff]; exact hdel2.2
      have hnnew :
          ¬ n ∈ (classify (worldEnv w d) (filesFrom w) (deletedNames w)).newly_add_list :=
        fun hcon => hnotff ((mem_newly_iff _ _ _ n).mp hcon).1
      have hnupd :
          ¬ n ∈ (classify (worldEnv w d) (filesFrom w) (deletedNames w)).update_list :=
        fun hcon => hnotff ((mem_update_iff _ _ _ n).mp hcon).1
      have hndel :
          ¬ n ∈ (classify (worldEnv w d) (filesFrom w) (deletedNames w)).delete_list := by
        intro hcon
        have hd2 := ((mem_delete_iff _ _ _ n).mp hcon).2
        have hr2 := ((mem_restore_iff _ _ _ n).mp hres).2
        rw [hd2] at hr2
        exact absurd hr2 (by simp)
      have hto1 : lookupKey n (runSync w d).toS = some c := by
        rw [runSync_toS_lookup, if_neg hndel,
          if_neg (fun hcon => hcon.elim hnnew hnupd), hc]
      have hfrom1 : lookupKey n (runSync w d).fromS = some c := by
        rw [runSync_fromS_lookup, if_pos hres, hc]
        rfl
      rw [classifyFrom_synced_iff]
      simp only [worldEnv]
      constructor
      · rw [hto1]; rfl
      · rw [hfrom1, hto1]; simp
    · have hfrom1 : lookupKey n (runSync w d).fromS = lookupKey n w.fromS := by
        rw [runSync_fromS_lookup, if_neg hres]
      rw [hfrom1] at hn
      obtain ⟨c, hc⟩ := Option.isSome_iff_exists.mp hn
      have hff : n ∈ filesFrom w := (mem_filesFrom_iff w n).mpr hn
      have hnotdel : ¬ n ∈ deletedNames w := by
        rw [mem_deletedNames_iff]; exact fun hcon => hcon.2 hn
      have hndel :
          ¬ n ∈ (classify (worldEnv w d) (filesFrom w) (deletedNames w)).delete_list :=
        fun hcon => hnotdel ((mem_delete_iff _ _ _ n).mp hcon).1
      cases hcls : classifyFrom (worldEnv w d) n with
      | create =>
        left
        have hnew :
            n ∈ (classify (worldEnv w d) (filesFrom w) (deletedNames w)).newly_add_list :=
          (mem_newly_iff _ _ _ n).mpr ⟨hff, hcls⟩
        have hto1 : lookupKey n (runSync w d).toS = some c := by
          rw [runSync_toS_lookup, if_neg hndel, if_pos (Or.inl hnew), hc]
          rfl
        rw [classifyFrom_synced_iff]
        simp only [worldEnv]
        constructor
        · rw [hto1]; rfl
        · rw [hfrom1, hto1, hc]; simp
      | update =>
        left
        have hupd :
            n ∈ (classify (worldEnv w d) (filesFrom w) (deletedNames w)).update_list :=
          (mem_update_iff _ _ _ n).mpr ⟨hff, hcls⟩
        have hto1 : lookupKey n (runSync w d).toS = some c := by
          rw [runSync_toS_lookup, if_neg hndel, if_pos (Or.inr hupd), hc]
          rfl
        rw [classifyFrom_synced_iff]
        simp only [worldEnv]
        constructor
        · rw [hto1]; rfl
        · rw [hfrom1, hto1, hc]; simp
      | synced =>
        left
        have hsy := (classifyFrom_synced_iff _ n).mp hcls
        have hnnew :
            ¬ n ∈ (classify (worldEnv w d) (filesFrom w) (deletedNames w)).newly_add_list := by
          intro hcon
          have := ((mem_newly_iff _ _ _ n).mp hcon).2
          rw [hcls] at this
          exact absurd this (by simp)
        have hnupd :
            ¬ n ∈ (classify (worldEnv w d) (filesFrom w) (deletedNames w)).update_list := by
          intro hcon
          have := ((mem_update_iff _ _ _ n).mp hcon).2
          rw [hcls] at this
          exact absurd this (by simp)
        have hto1 : lookupKey n (runSync w d).toS = lookupKey n w.toS := by
          rw [runSync_toS_lookup, if_neg hndel,
            if_neg (fun hcon => hcon.elim hnnew hnupd)]
        rw [classifyFrom_synced_iff]
        simp only [worldEnv]
        constructor
        · rw [hto1]
          exact hsy.1
        · rw [hfrom1, hto1]
          exact hsy.2
      | skipped =>
        right
        have hsk := (classifyFrom_skipped_iff _ n).mp hcls
        have hnnew :
            ¬ n ∈ (classify (worldEnv w d) (filesFrom w) (deletedNames w)).newly_add_list := by
          intro hcon
          have := ((mem_newly_iff _ _ _ n).mp hcon).2
          rw [hcls] at this
          exact absurd this (by simp)
        have hnupd :
            ¬ n ∈ (classify (worldEnv w d) (filesFrom w) (deletedNames w)).update_list := by
          intro hcon
          have := ((mem_update_iff _ _ _ n).mp hcon).2
          rw [hcls] at this
          exact absurd this (by simp)
        have hto1 : lookupKey n (runSync w d).toS = lookupKey n w.toS := by
          rw [runSync_toS_lookup, if_neg hndel,
            if_neg (fun hcon => hcon.elim hnnew hnupd)]
        rw [classifyFrom_skipped_iff]
        simp only [worldEnv]
        refine ⟨?_, ?_, hsk.2.2.1, hsk.2.2.2⟩
        · rw [hto1]
          exact hsk.1
        · rw [hfrom1, hto1]
          exact hsk.2.1
  have partB : ∀ n, n ∈ deletedNames (runSync w d) → d.decide_del n = Choice.i := by
    intro n hn
    obtain ⟨hto, hfrom⟩ := (mem_deletedNames_iff _ n).mp hn
    have hnres :
        ¬ n ∈ (classify (worldEnv w d) (filesFrom w) (deletedNames w)).restore_list := by
      intro hcon
      rw [runSync_fromS_lookup, if_pos hcon] at hfrom
      simp at hfrom
    have hfrom1 : lookupKey n (runSync w d).fromS = lookupKey n w.fromS := by
      rw [runSync_fromS_lookup, if_neg hnres]
    rw [hfrom1] at hfrom
    have hnotff : ¬ n ∈ filesFrom w := by
      rw [mem_filesFrom_iff]; exact hfrom
    have hnnew :
        ¬ n ∈ (classify (worldEnv w d) (filesFrom w) (deletedNames w)).newly_add_list :=
      fun hcon => hnotff ((mem_newly_iff _ _ _ n).mp hcon).1
    have hnupd :
        ¬ n ∈ (classify (worldEnv w d) (filesFrom w) (deletedNames w)).update_list :=
      fun hcon => hnotff ((mem_update_iff _ _ _ n).mp hcon).1
    have hndel :
        ¬ n ∈ (classify (worldEnv w d) (filesFrom w) (deletedNames w)).delete_list := by
      intro hcon
      rw [runSync_toS_lookup, if_pos hcon] at hto
      simp at hto
    have hto1 : lookupKey n (runSync w d).toS = lookupKey n w.toS := by
      rw [runSync_toS_lookup, if_neg hndel,
        if_neg (fun hcon => hcon.elim hnnew hnupd)]
    rw [hto1] at hto
    have hdel : n ∈ deletedNames w := (mem_deletedNames_iff w n).mpr ⟨hto, hfrom⟩
    cases hch : d.decide_del n with
    | d => exact absurd ((mem_delete_iff _ _ _ n).mpr ⟨hdel, hch⟩) hndel
    | r => exact absurd ((mem_restore_iff _ _ _ n).mpr ⟨hdel, hch⟩) hnres
    | i => rfl
  have partC : plan (classify (worldEnv (runSync w d) d) (filesFrom (runSync w d))
      (deletedNames (runSync w d))) = [] := by
    have h1 : (classify (worldEnv (runSync w d) d) (filesFrom (runSync w d))
        (deletedNames (runSync w d))).newly_add_list = [] := by
      simp only [classify]
      rw [List.filter_eq_nil_iff]
      intro a ha
      rcases partA a ha with h | h <;> simp [h]
    have h2 : (classify (worldEnv (runSync w d) d) (filesFrom (runSync w d))
        (deletedNames (runSync w d))).update_list = [] := by
      simp only [classify]
      rw [List.filter_eq_nil_iff]
      intro a ha
      rcases partA a ha with h | h <;> simp [h]
    have h3 : (classify (worldEnv (runSync w d) d) (filesFrom (runSync w d))
        (deletedNames (runSync w d))).restore_list = [] := by
      simp only [classify]
      rw [List.filter_eq_nil_iff]
      intro a ha
      have := partB a ha
      simp only [worldEnv]
      simp [this]
    have h4 : (classify (worldEnv (runSync w d) d) (filesFrom (runSync w d))
        (deletedNames (runSync w d))).delete_list = [] := by
      simp only [classify]
      rw [List.filter_eq_nil_iff]
      intro a ha
      have := partB a ha
      simp only [worldEnv]
      simp [this]
    unfold plan
    rw [h1, h2, h3, h4]
    rfl
  refine ⟨partA, partB, partC, ?_⟩
  show (plan (classify (worldEnv (runSync w d) d) (filesFrom (runSync w d))
      (deletedNames (runSync w d)))).foldl applyAction (runSync w d) = runSync w d
  rw [partC]
  rfl

/-- Counterexample to C4 as stated: in the world whose single file "a"
differs between the two sides, with "from" older and the overwrite
declined, the first run classifies "a" SKIPPED and leaves the world
unchanged, so the second run classifies "a" SKIPPED again — not SYNCED
(and names of the "from" enumeration never receive IGNORED, which only
deletion candidates can receive). -/
theorem c4_second_run_counterexample :
    ¬ (∀ n ∈ filesFrom (runSync (World.mk [("a", "x")] [("a", "y")])
          (Decider.mk (fun _ => false) (fun _ => Choice.i) (fun _ => false))),
        classifyFrom (worldEnv (runSync (World.mk [("a", "x")] [("a", "y")])
            (Decider.mk (fun _ => false) (fun _ => Choice.i) (fun _ => false)))
          (Decider.mk (fun _ => false) (fun _ => Choice.i) (fun _ => false))) n
          = FromClass.synced) ∧
    classifyFrom (worldEnv (runSync (World.mk [("a", "x")] [("a", "y")])
        (Decider.mk (fun _ => false) (fun _ => Choice.i) (fun _ => false)))
      (Decider.mk (fun _ => false) (fun _ => Choice.i) (fun _ => false))) "a"
      = FromClass.skipped := by
  decide

/-- Witness for the amended C4 at a concrete world: after the first run
creates "a" on "to" and ignores the "to"-only file "b", the second run
classifies "a" SYNCED or SKIPPED, the deletion decision for "b" is
IGNORE, and rerunning changes nothing. -/
theorem c4_second_run_stable_witness :
    (classifyFrom (worldEnv (runSync (World.mk [("a", "x")] [("b", "y")])
          (Decider.mk (fun _ => false) (fun _ => Choice.i) (fun _ => false)))
        (Decider.mk (fun _ => false) (fun _ => Choice.i) (fun _ => false))) "a"
        = FromClass.synced ∨
      classifyFrom (worldEnv (runSync (World.mk [("a", "x")] [("b", "y")])
          (Decider.mk (fun _ => false) (fun _ => Choice.i) (fun _ => false)))
        (Decider.mk (fun _ => false) (fun _ => Choice.i) (fun _ => false))) "a"
        = FromClass.skipped)
  ∧ (Decider.mk (fun _ => false) (fun _ => Choice.i)
      (fun _ => false) : Decider).decide_del "b" = Choice.i
  ∧ runSync (runSync (World.mk [("a", "x")] [("b", "y")])
        (Decider.mk (fun _ => false) (fun _ => Choice.i) (fun _ => false)))
      (Decider.mk (fun _ => false) (fun _ => Choice.i) (fun _ => false))
      = runSync (World.mk [("a", "x")] [("b", "y")])
        (Decider.mk (fun _ => false) (fun _ => Choice.i) (fun _ => false)) :=
  ⟨(c4_second_run_stable (World.mk [("a", "x")] [("b", "y")])
      (Decider.mk (fun _ => false) (fun _ => Choice.i) (fun _ => false))).1
      "a" (by decide),
   (c4_second_run_stable (World.mk [("a", "x")] [("b", "y")])
      (Decider.mk (fun _ => false) (fun _ => Choice.i) (fun _ => false))).2.1
      "b" (by decide),
   (c4_second_run_stable (World.mk [("a", "x")] [("b", "y")])
      (Decider.mk (fun _ => false) (fun _ => Choice.i) (fun _ => false))).2.2.2⟩

/-! ## Remote session protocol client (olclient.py lines 153-259)

The read loop of `get_project_infos.run` dispatches on the frame code
matched by the regex `codere` (olclient.py line 164) and on the decoded
JSON payload. -/

/-- A decoded JSON value, the result of `json.loads` on a frame payload
(olclient.py lines 196-199). Object keys are strings, as `json.loads`
produces. -/
inductive JVal where
  | null
  | jbool (b : Bool)
  | jnum (n : Int)
  | jstr (s : String)
  | jarr (elems : List JVal)
  | jobj (fields : List (String × JVal))

/-- Python equality between a decoded JSON value and a string literal
(`data["name"] == "connectionAccepted"`, olclient.py line 219): true
exactly when the value is that string; comparison of a non-string value
with a string is False in Python. -/
def jvalEqStr (v : JVal) (t : String) : Bool :=
  match v with
  | JVal.jstr u => u = t
  | _ => false

/-- One incoming frame after regex matching and JSON decoding: the `code`
group, the `answer_id` group (empty when absent), and the decoded payload
(`none` when the payload group is empty or missing; an undecodable
payload is already replaced by the object `{"name": "error"}` at
olclient.py lines 196-199, so it arrives here as a `JVal.jobj`). -/
structure Frame where
  code : String
  answer_id : String
  data : Option JVal

/-- An outgoing message on the websocket connection. -/
inductive OutMsg where
  | keepAliveEcho
  | joinProjectCmd (seqId : Nat)
deriving DecidableEq, Repr

/-- The per-session state of `get_project_infos`: the `requests`
correlation dict (olclient.py line 165) mapping outgoing request id to
the registered command name, the monotonically increasing sequence
counter, and the trace of messages sent on the connection. -/
structure Session where
  requests : List (String × String)
  counter : Nat
  sent : List OutMsg

/-- Modelled from the spec: `keep_alive` is invoked by the read loop on a
code-2 frame (olclient.py line 211) but is not defined anywhere in the
repository. Per the spec ("keepalive: must send a keepalive echo before
next read"), it sends a keepalive echo on the connection and changes
nothing else. -/
def keep_alive (s : Session) : Session :=
  { s with sent := s.sent ++ [OutMsg.keepAliveEcho] }

/-- Modelled from the spec: `join_project` is invoked by the read loop on
a `connectionAccepted` server event (olclient.py line 220) but is not
defined anywhere in the repository. Per the spec ("send a single
joinProject command frame (sequence id from a monotonically increasing
counter starting at 1, registered in PendingRequestTable)"), it sends the
join command under the current counter value and registers the command
name "joinProject" in the `requests` dict under that id. -/
def join_project (s : Session) : Session :=
  { requests := s.requests ++ [(toString s.counter, "joinProject")],
    counter := s.counter + 1,
    sent := s.sent ++ [OutMsg.joinProjectCmd s.counter] }

/-- The exceptions the read loop can raise, one constructor per `raise`
site of `get_project_infos.run` plus the two Python lookup errors:
`unauthorized` is the code-7 raise (olclient.py line 246, the spec's
AuthExpired), `unknownServerRequest` the code-5 raise (line 227),
`unknownAnswerCmd` the code-6 raise (line 242), `unknownCode` the
fall-through raise (line 250), `keyError` a failed dict subscript, and
`typeError` a subscript on a non-container. -/
inductive LoopErr where
  | unauthorized
  | unknownServerRequest
  | unknownAnswerCmd
  | unknownCode
  | keyError
  | typeError
  | indexError
deriving DecidableEq, Repr

/-- Python subscript `data[k]` with a string key: succeeds only when the
decoded payload is a JSON object containing the key; a missing key is a
KeyError, a non-object (or absent) payload a TypeError. -/
def getStrKey (d : Option JVal) (k : String) : Except LoopErr JVal :=
  match d with
  | some (JVal.jobj fields) =>
    match lookupKey k fields with
    | some v => Except.ok v
    | none => Except.error LoopErr.keyError
  | _ => Except.error LoopErr.typeError

/-- Python subscript `data[1]` (olclient.py line 238): on a decoded JSON
array it is the element at index 1 (IndexError when shorter); on a
decoded JSON object it is a lookup of the integer key `1`, which is a
KeyError because `json.loads` produces only string keys; on anything else
a TypeError. -/
def index1 : Option JVal → Except LoopErr JVal
  | some (JVal.jarr l) =>
    match l[1]? with
    | some v => Except.ok v
    | none => Except.error LoopErr.indexError
  | some (JVal.jobj _) => Except.error LoopErr.keyError
  | _ => Except.error LoopErr.typeError

/-- Outcome of handling one frame inside the `while project_infos is
None` loop of `get_project_infos.run` (olclient.py lines 185-250):
continue reading, exit with the metadata result (`project_infos` became
non-None), break with no result (code 0), or raise. -/
inductive StepResult where
  | cont (s : Session)
  | done (s : Session) (infos : JVal)
  | halt (s : Session)
  | raised (s : Session) (e : LoopErr)

/-- The dispatch of `get_project_infos.run` on one frame (olclient.py
lines 201-250), clause by clause: code 0 breaks; code 1 is a no-op; code
2 calls `keep_alive`; code 5 reads `data["name"]` and either joins the
project, finishes with `data["args"]`, or raises; code 6 reads
`requests[answer_id]` and, for a pending "joinProject", finishes with
`data[1]`, otherwise raises; code 7 raises the unauthorized error; any
other code raises. (The code-5 guard `if not isinstance(data, dict):
pass` has no effect and is modelled by nothing.) -/
def handleFrame (s : Session) (f : Frame) : StepResult :=
  if f.code = "0" then StepResult.halt s
  else if f.code = "1" then StepResult.cont s
  else if f.code = "2" then StepResult.cont (keep_alive s)
  else if f.code = "5" then
    match getStrKey f.data "name" with
    | Except.error e => StepResult.raised s e
    | Except.ok v =>
      if jvalEqStr v "connectionAccepted" then
        StepResult.cont (join_project s)
      else if jvalEqStr v "joinProjectResponse" then
        match getStrKey f.data "args" with
        | Except.error e => StepResult.raised s e
        | Except.ok args => StepResult.done s args
      else StepResult.raised s LoopErr.unknownServerRequest
  else if f.code = "6" then
    match lookupKey f.answer_id s.requests with
    | none => StepResult.raised s LoopErr.keyError
    | some cmd =>
      if cmd = "joinProject" then
        match index1 f.data with
        | Except.ok v => StepResult.done s v
        | Except.error e => StepResult.raised s e
      else StepResult.raised s LoopErr.unknownAnswerCmd
  else if f.code = "7" then StepResult.raised s LoopErr.unauthorized
  else StepResult.raised s LoopErr.unknownCode

/-- Final outcome of the read loop: metadata obtained, loop ended without
metadata (code-0 break or connection closed, i.e. frames exhausted), or
an exception propagated out of `run` (olclient.py lines 252-253 re-raise
unchanged). -/
inductive LoopOutcome where
  | finished (s : Session) (infos : JVal)
  | stopped (s : Session)
  | raisedOut (s : Session) (e : LoopErr)

/-- The `while project_infos is None` read loop of `get_project_infos.run`
(olclient.py lines 185-250) over the sequence of frames the connection
will deliver: each frame is handled in order until metadata is obtained,
the loop breaks, or an exception is raised; an exhausted connection
(`response is None`, line 190) breaks the loop. -/
def runLoop (s : Session) : List Frame → LoopOutcome
  | [] => LoopOutcome.stopped s
  | f :: rest =>
    match handleFrame s f with
    | StepResult.cont s2 => runLoop s2 rest
    | StepResult.done s2 v => LoopOutcome.finished s2 v
    | StepResult.halt s2 => LoopOutcome.stopped s2
    | StepResult.raised s2 e => LoopOutcome.raisedOut s2 e

/-! ## Claim C5 -/

/-- C5: on a reply frame (code 6) the read loop looks the frame's
answer id up in the `requests` correlation dict (olclient.py line 233);
when the command registered under that id is "joinProject", the loop
finishes with the second element of the decoded payload as the metadata
result (line 238) — for an array payload this extraction never inspects
the shape of that second element, so an object-shaped and an
array-shaped second element are both accepted; a reply correlated to any
other command raises the protocol violation (line 242). The last
conjunct is the registration itself: `join_project` (modelled from the
spec) registers "joinProject" under the counter value it sends with,
starting from 1. -/
theorem c5_reply_dispatch (s : Session) (f : Frame) (rest : List Frame) (cmd : String)
    (hcode : f.code = "6")
    (hlook : lookupKey f.answer_id s.requests = some cmd) :
    (cmd = "joinProject" →
      ∀ (x m : JVal) (tl : List JVal), f.data = some (JVal.jarr (x :: m :: tl)) →
        runLoop s (f :: rest) = LoopOutcome.finished s m)
  ∧ (cmd ≠ "joinProject" →
      runLoop s (f :: rest) = LoopOutcome.raisedOut s LoopErr.unknownAnswerCmd)
  ∧ lookupKey (toString (1 : Nat)) (join_project (Session.mk [] 1 [])).requests
      = some "joinProject" := by
  refine ⟨?_, ?_, rfl⟩
  · intro hcmd x m tl hdata
    subst hcmd
    simp [runLoop, handleFrame, hcode, hlook, hdata, index1]
  · intro hcmd
    simp [runLoop, handleFrame, hcode, hlook, hcmd]

/-- Witness for C5: a session with "joinProject" pending under id "1"
finishes with the second payload element both when that element is an
object and when it is a two-element array; a session with another
command pending raises the protocol violation. -/
theorem c5_reply_dispatch_witness :
    runLoop (Session.mk [("1", "joinProject")] 2 [])
      [Frame.mk "6" "1" (some (JVal.jarr [JVal.null,
        JVal.jobj [("rootFolder", JVal.jarr [])]]))]
      = LoopOutcome.finished (Session.mk [("1", "joinProject")] 2 [])
        (JVal.jobj [("rootFolder", JVal.jarr [])])
  ∧ runLoop (Session.mk [("1", "joinProject")] 2 [])
      [Frame.mk "6" "1" (some (JVal.jarr [JVal.null,
        JVal.jarr [JVal.null, JVal.null]]))]
      = LoopOutcome.finished (Session.mk [("1", "joinProject")] 2 [])
        (JVal.jarr [JVal.null, JVal.null])
  ∧ runLoop (Session.mk [("1", "otherCmd")] 2 [])
      [Frame.mk "6" "1" (some (JVal.jarr [JVal.null, JVal.null]))]
      = LoopOutcome.raisedOut (Session.mk [("1", "otherCmd")] 2 [])
        LoopErr.unknownAnswerCmd :=
  ⟨(c5_reply_dispatch (Session.mk [("1", "joinProject")] 2 [])
      (Frame.mk "6" "1" (some (JVal.jarr [JVal.null,
        JVal.jobj [("rootFolder", JVal.jarr [])]]))) [] "joinProject"
      rfl (by decide)).1 rfl JVal.null
      (JVal.jobj [("rootFolder", JVal.jarr [])]) [] rfl,
   (c5_reply_dispatch (Session.mk [("1", "joinProject")] 2 [])
      (Frame.mk "6" "1" (some (JVal.jarr [JVal.null,
        JVal.jarr [JVal.null, JVal.null]]))) [] "joinProject"
      rfl (by decide)).1 rfl JVal.null
      (JVal.jarr [JVal.null, JVal.null]) [] rfl,
   (c5_reply_dispatch (Session.mk [("1", "otherCmd")] 2 [])
      (Frame.mk "6" "1" (some (JVal.jarr [JVal.null, JVal.null]))) [] "otherCmd"
      rfl (by decide)).2.1 (by decide)⟩

/-! ## Claim C6 -/

/-- C6: on a keepalive frame (code 2) the read loop calls `keep_alive`
(olclient.py lines 209-211) and then continues with the remaining frames:
the keepalive echo is appended to the sent trace before the next read,
nothing else in the session changes, and the session goes on. The
`keep_alive` body is modelled from the spec, being absent from the
repository. -/
theorem c6_keepalive_echo (s : Session) (f : Frame) (rest : List Frame)
    (hcode : f.code = "2") :
    runLoop s (f :: rest) = runLoop (keep_alive s) rest
  ∧ (keep_alive s).sent = s.sent ++ [OutMsg.keepAliveEcho]
  ∧ (keep_alive s).requests = s.requests
  ∧ (keep_alive s).counter = s.counter := by
  refine ⟨?_, rfl, rfl, rfl⟩
  simp [runLoop, handleFrame, hcode]

/-- Witness for C6 at a concrete session and frame. -/
theorem c6_keepalive_echo_witness :
    runLoop (Session.mk [] 1 []) [Frame.mk "2" "" none]
      = runLoop (keep_alive (Session.mk [] 1 [])) []
  ∧ (keep_alive (Session.mk [] 1 [])).sent = [] ++ [OutMsg.keepAliveEcho]
  ∧ (keep_alive (Session.mk [] 1 [])).requests = []
  ∧ (keep_alive (Session.mk [] 1 [])).counter = 1 :=
  c6_keepalive_echo (Session.mk [] 1 []) (Frame.mk "2" "" none) [] rfl

/-! ## Claim C9 -/

/-- C9: on an unauthorized frame (code 7) the read loop raises
immediately (olclient.py lines 244-246, the spec's AuthExpired): the
outcome does not depend on the remaining frames (no further frame is
read), and the session carried out is the incoming one unchanged — in
particular its sent trace gains no message, so no retry and no
re-connection is issued. -/
theorem c9_unauthorized_terminates (s : Session) (f : Frame) (rest : List Frame)
    (hcode : f.code = "7") :
    runLoop s (f :: rest) = LoopOutcome.raisedOut s LoopErr.unauthorized := by
  simp [runLoop, handleFrame, hcode]

/-- Witness for C9: a code-7 frame followed by a keepalive frame that is
never read. -/
theorem c9_unauthorized_terminates_witness :
    runLoop (Session.mk [] 1 []) [Frame.mk "7" "" none, Frame.mk "2" "" none]
      = LoopOutcome.raisedOut (Session.mk [] 1 []) LoopErr.unauthorized :=
  c9_unauthorized_terminates (Session.mk [] 1 [])
    (Frame.mk "7" "" none) [Frame.mk "2" "" none] rfl

/-! ## HTTP layer: safe_post, create_folder, upload_file result
(olclient.py lines 69-75, 123-150, 297-311) -/

/-- The one exception class these paths raise. -/
inductive PyErr where
  | httpError
deriving DecidableEq, Repr

/-- A server response as these functions read it: the integer status code
and the decoded body. -/
structure Response where
  status_code : Nat
  content : JVal

/-- `requests.Response.raise_for_status()`: raises `HTTPError` for a 4xx
or 5xx status, otherwise returns the response unchanged. -/
def raise_for_status (r : Response) : Except PyErr Response :=
  if 400 ≤ r.status_code then Except.error PyErr.httpError else Except.ok r

/-- `safe_post` (olclient.py lines 69-75): performs the POST and calls
`raise_for_status()`; the surrounding `try`/`except` re-raises the
exception unchanged, so the observable behaviour is exactly
`raise_for_status` on the response. -/
def safe_post (r : Response) : Except PyErr Response :=
  raise_for_status r

/-- `requests.Response.ok`: true when the status code is below 400. -/
def respOk (r : Response) : Bool :=
  decide (r.status_code < 400)

/-- Python `==` between an int and a str (as in `r.status_code ==
str(400)` at olclient.py line 146 and `r.status_code == str(200)` at
line 311): values of different types with no coercion compare unequal,
so the result is False for every status code. -/
def pyEqIntStr (_ : Nat) (_ : String) : Bool := false

/-- `create_folder` (olclient.py lines 123-150) after the POST: the
response comes back through `safe_post` (which already raised for any
status of 400 or above); on `r.ok` the parsed body is returned; on
`r.status_code == str(400)` the function returns None (the `# Folder
already exists` branch); otherwise it raises `HTTPError`. -/
def create_folder (resp : Response) : Except PyErr (Option JVal) :=
  match safe_post resp with
  | Except.error e => Except.error e
  | Except.ok r =>
    if respOk r then Except.ok (some r.content)
    else if pyEqIntStr r.status_code "400" then Except.ok none
    else Except.error PyErr.httpError

/-- The value `upload_file` returns (olclient.py lines 309-311): the
response of the upload POST through `safe_post`, then
`r.status_code == str(200) and json.loads(r.content)["success"]`, with
the Python `and` short-circuiting so the body field (modelled by the
injected `jsonSuccess`) is only consulted when the comparison is
truthy. -/
def upload_file_result (jsonSuccess : JVal → Bool) (resp : Response) :
    Except PyErr Bool :=
  match safe_post resp with
  | Except.error e => Except.error e
  | Except.ok r => Except.ok (pyEqIntStr r.status_code "200" && jsonSuccess r.content)

/-! ## Claim C7 -/

/-- C7 (code bug): an "already exists" signal — a 400-status response to
the folder-creation POST — is not treated as success: `safe_post` calls
`raise_for_status()`, which raises `HTTPError` on the 400 before
`create_folder` can inspect it, so resolution aborts instead of
continuing. Moreover the `# Folder already exists` branch guarding on
`r.status_code == str(400)` is unreachable even in principle, because the
comparison of an int with a str is always False in Python (second
conjunct). -/
theorem c7_folder_conflict_raises :
    create_folder (Response.mk 400 JVal.null) = Except.error PyErr.httpError
  ∧ pyEqIntStr 400 "400" = false :=
  ⟨rfl, rfl⟩

/-! ## Claim C10 -/

/-- C10: for every response `upload_file` receives without an exception
being raised (that is, every response `safe_post` lets through), the
function returns False, because `r.status_code == str(200)` compares the
integer status code with the string "200" and is therefore always False,
short-circuiting the `and`. -/
theorem c10_upload_never_succeeds (jsonSuccess : JVal → Bool)
    (resp r : Response) (h : safe_post resp = Except.ok r) :
    upload_file_result jsonSuccess resp = Except.ok false := by
  unfold upload_file_result
  rw [h]
  rfl

/-- Witness for C10: a fully successful upload (HTTP 200, body reporting
success) still yields False. -/
theorem c10_upload_never_succeeds_witness :
    upload_file_result (fun _ => true) (Response.mk 200 JVal.null)
      = Except.ok false :=
  c10_upload_never_succeeds (fun _ => true) (Response.mk 200 JVal.null)
    (Response.mk 200 JVal.null) rfl

/-! ## Path resolver / folder materializer (olclient.py lines 274-296) -/

/-- A remote folder node as `upload_file` reads it from the project
metadata: the JSON fields `_id`, `name` and `folders` (child folders). -/
inductive Folder where
  | node (fid fname : String) (subs : List Folder)

/-- The `_id` field. -/
def Folder.fid : Folder → String
  | Folder.node i _ _ => i

/-- The `name` field. -/
def Folder.fname : Folder → String
  | Folder.node _ n _ => n

/-- The `folders` field. -/
def Folder.subs : Folder → List Folder
  | Folder.node _ _ fs => fs

/-- Python `str.lower()` on a name, modelled characterwise. -/
def pyLower (s : String) : String :=
  String.mk (s.toList.map Char.toLower)

/-- Helper splitting a character list on a separator, accumulating the
current segment in reverse. -/
def splitChars (sep : Char) : List Char → List Char → List (List Char)
  | [], acc => [acc.reverse]
  | c :: cs, acc =>
    if c = sep then acc.reverse :: splitChars sep cs []
    else splitChars sep cs (c :: acc)

/-- Python `file_name.split(PATH_SEP)` for the one-character separator
`PATH_SEP = "/"` (olclient.py lines 36 and 279). -/
def pySplit (s : String) (sep : Char) : List String :=
  (splitChars sep s.toList []).map (fun cs => String.mk cs)

/-- `PATH_SEP` (olclient.py line 36) as the single character it holds. -/
def PATH_SEP : Char := '/'

/-- The inner scan of one level: iterate over the current remote folder
list and take the first whose name matches the segment
case-insensitively (`local_folder.lower() == remote_folder['name'].lower()`,
olclient.py lines 284-290). -/
def find_remote_folder (local_folder : String) : List Folder → Option Folder
  | [] => none
  | f :: rest =>
    if pyLower local_folder = pyLower f.fname then some f
    else find_remote_folder local_folder rest

/-- The folder walk of `upload_file` (olclient.py lines 282-296) over the
path segments: on a case-insensitive match descend into the matched
folder; otherwise call the folder-creation collaborator `newFolder`
(recording the call as the pair of parent folder id and segment name) and
descend into the returned new folder. Returns the terminal folder id and
the ordered list of creation calls issued. The in-place
`current_overleaf_folder.append(new_folder)` is not observable within a
single resolution, because the walk immediately descends into
`new_folder['folders']` and never revisits the level it extended. -/
def resolve_folders (newFolder : String → String → Folder) :
    List String → String → List Folder → String × List (String × String)
  | [], folder_id, _ => (folder_id, [])
  | seg :: rest, folder_id, cur =>
    match find_remote_folder seg cur with
    | some f => resolve_folders newFolder rest f.fid f.subs
    | none =>
      let nf := newFolder folder_id seg
      let res := resolve_folders newFolder rest nf.fid nf.subs
      (res.1, (folder_id, seg) :: res.2)

/-- The folder-materializing prefix of `upload_file` (olclient.py lines
274-296): start at the root folder's id; when the file name contains
`PATH_SEP`, walk `file_name.split(PATH_SEP)[:-1]` from the root's
children, creating missing folders; otherwise stay at the root. Returns
the folder id under which the file is then placed, and the creation
calls issued before the upload POST. -/
def upload_file_folder_calls (newFolder : String → String → Folder)
    (root : Folder) (file_name : String) : String × List (String × String) :=
  if file_name.toList.contains PATH_SEP then
    resolve_folders newFolder ((pySplit file_name PATH_SEP).dropLast)
      root.fid root.subs
  else (root.fid, [])

lemma Folder.fid_node (i n : String) (fs : List Folder) :
    (Folder.node i n fs).fid = i := rfl

lemma Folder.fname_node (i n : String) (fs : List Folder) :
    (Folder.node i n fs).fname = n := rfl

lemma Folder.subs_node (i n : String) (fs : List Folder) :
    (Folder.node i n fs).subs = fs := rfl

/-! ## Claim C8 -/

/-- C8: resolving "a/b/c.tex" against a root with no child folders issues
exactly two folder-creation calls before the file is placed — first for
segment "a" under the root, then for segment "b" under the folder the
collaborator returned for "a" — and the terminal id is the id of the
folder created for "b". When a folder named "A" exists at the root
level, segment "a" matches it case-insensitively and the only creation
call is for "b" under "A"'s id. The hypothesis states that a freshly
created folder has no children, as the server's new-folder descriptor
reports. -/
theorem c8_path_resolution (newFolder : String → String → Folder)
    (hfresh : ∀ p n, (newFolder p n).subs = [])
    (rootId rootName aId : String) :
    upload_file_folder_calls newFolder (Folder.node rootId rootName []) "a/b/c.tex"
      = ((newFolder (newFolder rootId "a").fid "b").fid,
          [(rootId, "a"), ((newFolder rootId "a").fid, "b")])
  ∧ upload_file_folder_calls newFolder
      (Folder.node rootId rootName [Folder.node aId "A" []]) "a/b/c.tex"
      = ((newFolder aId "b").fid, [(aId, "b")]) := by
  have hsplit : (pySplit "a/b/c.tex" PATH_SEP).dropLast = ["a", "b"] := by decide
  have hcont : ("a/b/c.tex".toList.contains PATH_SEP) = true := by decide
  constructor
  · show (if "a/b/c.tex".toList.contains PATH_SEP then _ else _) = _
    rw [hcont, if_pos rfl, hsplit]
    simp only [resolve_folders, find_remote_folder, hfresh,
      Folder.fid_node, Folder.fname_node, Folder.subs_node]
  · show (if "a/b/c.tex".toList.contains PATH_SEP then _ else _) = _
    rw [hcont, if_pos rfl, hsplit]
    have hmatch : pyLower "a" = pyLower "A" := by decide
    simp only [resolve_folders, find_remote_folder, hmatch, hfresh,
      Folder.fid_node, Folder.fname_node, Folder.subs_node, if_true]

/-- Witness for C8 with a concrete collaborator that builds fresh empty
folders with path-shaped ids. -/
theorem c8_path_resolution_witness :
    upload_file_folder_calls (fun p n => Folder.node (p ++ "/" ++ n) n [])
      (Folder.node "root" "r" []) "a/b/c.tex"
      = ("root/a/b", [("root", "a"), ("root/a", "b")])
  ∧ upload_file_folder_calls (fun p n => Folder.node (p ++ "/" ++ n) n [])
      (Folder.node "root" "r" [Folder.node "idA" "A" []]) "a/b/c.tex"
      = ("idA/b", [("idA", "b")]) :=
  ⟨(c8_path_resolution (fun p n => Folder.node (p ++ "/" ++ n) n [])
      (fun _ _ => rfl) "root" "r" "idA").1,
   (c8_path_resolution (fun p n => Folder.node (p ++ "/" ++ n) n [])
      (fun _ _ => rfl) "root" "r" "idA").2⟩
